import Mathlib

/-!
Shallow embedding of the pagination, filtering, record-store and
authorization logic of the GraphQL/REST API server, together with proofs
about it.  Every definition is translated from the JavaScript sources:
`BaseController.getPaginationParams` and the node controller filters
(REST), the `getNodes`/`getTriggers`/`getResponses` cursor pagination
(GraphQL resolvers, identical in all three), the `Database` class, and
`AuthService.hasRole`/`hasPermission`.
-/

namespace GraphQLAssignment

/-- A JavaScript number restricted to the integral values that arise in
this codebase; `none` models `NaN` (for instance the result of `parseInt`
on a non-numeric string). -/
abbrev JSNum := Option Int

/-- NaN-propagating addition of JS numbers. -/
def jsAdd : JSNum → JSNum → JSNum
  | some a, some b => some (a + b)
  | _, _ => none

/-- JS `<` comparison: every comparison involving NaN is false. -/
def jsLt : JSNum → JSNum → Bool
  | some a, some b => a < b
  | _, _ => false

/-- JS `Number.prototype.toString` on the numbers used here. -/
def jsNumToString : JSNum → String
  | some n => toString n
  | none => "NaN"

/-- Decimal digit value of a character, if it is one. -/
def decDigit? (c : Char) : Option Nat :=
  if '0' ≤ c ∧ c ≤ '9' then some (c.toNat - '0'.toNat) else none

/-- Hexadecimal digit value of a character, if it is one. -/
def hexDigit? (c : Char) : Option Nat :=
  if '0' ≤ c ∧ c ≤ '9' then some (c.toNat - '0'.toNat)
  else if 'a' ≤ c ∧ c ≤ 'f' then some (c.toNat - 'a'.toNat + 10)
  else if 'A' ≤ c ∧ c ≤ 'F' then some (c.toNat - 'A'.toNat + 10)
  else none

/-- Longest prefix of digit values recognised by `dig`. -/
def digitPrefix (dig : Char → Option Nat) : List Char → List Nat
  | [] => []
  | c :: cs =>
    match dig c with
    | some d => d :: digitPrefix dig cs
    | none => []

/-- Value of a big-endian digit list in the given base. -/
def digitsValue (base : Nat) (ds : List Nat) : Nat :=
  ds.foldl (fun acc d => acc * base + d) 0

/-- Whitespace skipped by `parseInt`. -/
def isJsWhitespace (c : Char) : Bool :=
  c == ' ' || c == '\t' || c == '\n' || c == '\r'

/-- ECMAScript `parseInt(string)` with no radix argument: skip leading
whitespace, take an optional sign, then an optional `0x`/`0X` hex prefix,
then the longest prefix of digits in the selected base; if that prefix is
empty the result is NaN (`none`). -/
def parseIntJS (s : String) : JSNum :=
  let cs := s.toList.dropWhile isJsWhitespace
  let signed : Int × List Char :=
    match cs with
    | '-' :: r => (-1, r)
    | '+' :: r => (1, r)
    | _ => (1, cs)
  let based : Nat × List Char :=
    match signed.2 with
    | '0' :: 'x' :: r => (16, r)
    | '0' :: 'X' :: r => (16, r)
    | _ => (10, signed.2)
  let dig := if based.1 = 16 then hexDigit? else decDigit?
  let ds := digitPrefix dig based.2
  if ds.isEmpty then none else some (signed.1 * (digitsValue based.1 ds : Int))

/-- Clamp a relative index the way `Array.prototype.slice` does: a
negative value counts back from the end, and the result is clamped to
`[0, len]`. -/
def sliceBound (len : Nat) (rel : Int) : Nat :=
  if rel < 0 then ((len : Int) + rel).toNat else min rel.toNat len

/-- JavaScript `l.slice(start, stop)`; a NaN index coerces to 0. -/
def jsSlice (l : List α) (start stop : JSNum) : List α :=
  let s := sliceBound l.length (start.getD 0)
  let e := sliceBound l.length (stop.getD 0)
  (l.take e).drop s

/-- One element of a GraphQL connection: the record plus its cursor. -/
structure Edge (α : Type) where
  node : α
  cursor : String
deriving DecidableEq

/-- The `pageInfo` object returned by the paginated resolvers. -/
structure PageInfo where
  hasNextPage : Bool
  hasPreviousPage : Bool
  startCursor : Option String
  endCursor : Option String
deriving DecidableEq

/-- The connection envelope returned by the paginated resolvers. -/
structure Connection (α : Type) where
  edges : List (Edge α)
  pageInfo : PageInfo
  totalCount : Nat
deriving DecidableEq

/-- `const startIndex = after ? parseInt(after) : 0`; `after` is either
absent or a string, and the only falsy string is the empty one. -/
def gqlStartIndex : Option String → JSNum
  | none => some 0
  | some s => if s = "" then some 0 else parseIntJS s

/-- Cursor pagination over an already-filtered sequence, as written
identically in `NodeResolvers.getNodes`, `TriggerResolvers.getTriggers`
and `ResponseResolvers.getResponses`. -/
def gqlPaginate (filtered : List α) (first : Int) (after : Option String) : Connection α :=
  let startIndex := gqlStartIndex after
  let endIndex := jsAdd startIndex (some first)
  let paginated := jsSlice filtered startIndex endIndex
  { edges := paginated.enum.map fun ia =>
      { node := ia.2, cursor := jsNumToString (jsAdd startIndex (some (ia.1 : Int))) }
    pageInfo :=
      { hasNextPage := jsLt endIndex (some (filtered.length : Int))
        hasPreviousPage := jsLt (some 0) startIndex
        startCursor := if 0 < paginated.length then some (jsNumToString startIndex) else none
        endCursor :=
          if 0 < paginated.length then some (jsNumToString (jsAdd endIndex (some (-1)))) else none }
    totalCount := filtered.length }

/-- The records carried by the edges of a cursor-paginated result. -/
def gqlRecords (filtered : List α) (first : Int) (after : Option String) : List α :=
  (gqlPaginate filtered first after).edges.map Edge.node

/-- Result of `BaseController.getPaginationParams`. -/
structure PaginationParams where
  page : Int
  limit : Int
  offset : Int
deriving DecidableEq

/-- JS `x || d` over a number `x`: NaN and 0 are falsy. -/
def jsOrDefault (x : JSNum) (d : Int) : Int :=
  match x with
  | none => d
  | some n => if n = 0 then d else n

/-- `parseInt(q)` on an optional query-string value; an absent value is
`undefined` and `parseInt(undefined)` is NaN. -/
def parseQueryInt : Option String → JSNum
  | none => none
  | some s => parseIntJS s

/-- `BaseController.getPaginationParams`: page defaults to 1 and is forced
to be at least 1, limit defaults to 10 and is clamped to `[1, 100]`,
offset is `(page - 1) * limit`. -/
def getPaginationParams (pageQ limitQ : Option String) : PaginationParams :=
  let page := max 1 (jsOrDefault (parseQueryInt pageQ) 1)
  let limit := min 100 (max 1 (jsOrDefault (parseQueryInt limitQ) 10))
  { page := page, limit := limit, offset := (page - 1) * limit }

/-- The records returned by a REST listing over an already-filtered
sequence: `filtered.slice(offset, offset + limit)` as in
`NodeController.getNodes`. -/
def restRecords (filtered : List α) (pageQ limitQ : Option String) : List α :=
  let p := getPaginationParams pageQ limitQ
  jsSlice filtered (some p.offset) (some (p.offset + p.limit))

/-- Projection of a stored JSON record onto the fields inspected by the
operations verified here: `_id` and `children` for the record store,
`name`, `root`, `global` and `colour` for the node filters.  An optional
field models one that can be absent from the JSON object. -/
structure Record where
  _id : String
  name : String
  root : Option Bool
  global : Option Bool
  colour : Option String
  children : Option (List String)
deriving DecidableEq

/-- JS strict equality between a possibly-absent boolean field and a
boolean value: an absent field compares unequal to everything. -/
def jsEqBool : Option Bool → Bool → Bool
  | some b, c => b == c
  | none, _ => false

/-- Whether `needle` occurs as a contiguous run inside `hay`. -/
def listContainsRun (needle : List Char) : List Char → Bool
  | [] => needle.isEmpty
  | c :: t => needle.isPrefixOf (c :: t) || listContainsRun needle t

/-- JS `hay.toLowerCase().includes(needle.toLowerCase())`. -/
def jsIncludesLower (hay needle : String) : Bool :=
  listContainsRun needle.toLower.toList hay.toLower.toList

/-- Filter section of `NodeController.getNodes`: name substring match
(case-insensitive), `node.root === (root === 'true')`, the same for
`global`, and exact `colour` match.  An absent query field applies no
filter; `name` and `colour` are also skipped when empty (falsy). -/
def restNodeFilter (nodes : List Record) (nameQ rootQ globalQ colourQ : Option String) :
    List Record :=
  let n1 :=
    match nameQ with
    | some nm => if nm = "" then nodes else nodes.filter fun n => jsIncludesLower n.name nm
    | none => nodes
  let n2 :=
    match rootQ with
    | some rv => n1.filter fun n => jsEqBool n.root (rv == "true")
    | none => n1
  let n3 :=
    match globalQ with
    | some gv => n2.filter fun n => jsEqBool n.global (gv == "true")
    | none => n2
  match colourQ with
  | some cv => if cv = "" then n3 else n3.filter fun n => n.colour == some cv
  | none => n3

/-- The in-memory record store: the `initialized` flag set at the end of
`initialize()` plus the per-collection data.  In the source `data` is
`null` before initialization and every store operation consults
`initialized` before touching `data`, so `data` is carried
unconditionally here. -/
structure Database where
  initialized : Bool
  data : List (String × List Record)
deriving DecidableEq

namespace Database

/-- `Database.find`: throws when the store is not initialized, returns
`[]` for an unknown collection, otherwise filters the collection. -/
def find (db : Database) (collection : String) (p : Record → Bool) :
    Except String (List Record) :=
  if !db.initialized then .error "Database not initialized"
  else
    match db.data.lookup collection with
    | none => .ok []
    | some records => .ok (records.filter p)

/-- `Database.findOne`: first match of `find`, or `null`. -/
def findOne (db : Database) (collection : String) (p : Record → Bool) :
    Except String (Option Record) :=
  (db.find collection p).map fun results =>
    if 0 < results.length then results.head? else none

/-- `Database.findById` with the default `idField = "_id"` (every call
site in the repository uses the default). -/
def findById (db : Database) (collection : String) (id : String) :
    Except String (Option Record) :=
  db.findOne collection fun record => record._id == id

/-- `Database.findByIds` with the default `idField = "_id"`; `none` for
`ids` models a null/undefined/non-array argument, which returns `[]`
before the initialization check is ever reached. -/
def findByIds (db : Database) (collection : String) (ids : Option (List String)) :
    Except String (List Record) :=
  match ids with
  | none => .ok []
  | some ids => db.find collection fun record => ids.contains record._id

/-- `Database.findAll`. -/
def findAll (db : Database) (collection : String) : Except String (List Record) :=
  if !db.initialized then .error "Database not initialized"
  else .ok ((db.data.lookup collection).getD [])

/-- `Database.findParentNodesByCompositeIds` (after its normalisation of
a non-array argument into a one-element array): the nodes whose
`children` array contains one of the given composite ids; a node with no
`children` field never matches, via the `?.` chain. -/
def findParentNodesByCompositeIds (db : Database) (compositeIds : List String) :
    Except String (List Record) :=
  db.find "nodes" fun node =>
    match node.children with
    | none => false
    | some cs => cs.any fun childId => compositeIds.contains childId

end Database

/-- A JWT payload projected onto the only field the role checks read. -/
structure User where
  role : String
deriving DecidableEq

/-- Modelled from the spec: the `USER_ROLES` constants live in
`src/shared/constants`, which is not among the sources; the spec's role
table and the shared JSDoc typedef give the role set as
admin, user, guest. -/
def ROLE_ADMIN : String := "admin"

/-- Modelled from the spec: see `ROLE_ADMIN`. -/
def ROLE_USER : String := "user"

/-- Modelled from the spec: see `ROLE_ADMIN`. -/
def ROLE_GUEST : String := "guest"

/-- The `roleHierarchy` table of `AuthService.hasRole`:
`{guest: 0, user: 1, admin: 2}`. -/
def roleHierarchy (role : String) : Option Nat :=
  if role == ROLE_GUEST then some 0
  else if role == ROLE_USER then some 1
  else if role == ROLE_ADMIN then some 2
  else none

/-- `roleHierarchy[r] || 0`: an unknown role falls back to level 0. -/
def roleLevel (role : String) : Nat := (roleHierarchy role).getD 0

/-- `AuthService.hasRole`: false for a missing user or falsy role, else a
comparison of hierarchy levels. -/
def hasRole (user : Option User) (requiredRole : String) : Bool :=
  match user with
  | none => false
  | some u =>
    if u.role = "" then false
    else decide (roleLevel requiredRole ≤ roleLevel u.role)

/-- The `userPermissions` table inside `AuthService.hasPermission`. -/
def userPermissions (resource : String) : Option (List String) :=
  if resource == "nodes" then some ["read", "write"]
  else if resource == "triggers" then some ["read", "write"]
  else if resource == "actions" then some ["read", "write"]
  else if resource == "responses" then some ["read", "write"]
  else if resource == "resourceTemplates" then some ["read"]
  else none

/-- `AuthService.hasPermission`. -/
def hasPermission (user : Option User) (resource : String) (action : String) : Bool :=
  match user with
  | none => false
  | some u =>
    if u.role == ROLE_ADMIN then true
    else if u.role == ROLE_USER then
      match userPermissions resource with
      | some actions => actions.contains action
      | none => false
    else if u.role == ROLE_GUEST then action == "read"
    else false

/-! ## General lemmas -/

theorem parseIntJS_empty : parseIntJS "" = none := rfl

theorem gqlStartIndex_of_parse {s : String} {v : Int} (h : parseIntJS s = some v) :
    gqlStartIndex (some s) = some v := by
  have hs : s ≠ "" := fun he => by rw [he, parseIntJS_empty] at h; exact Option.noConfusion h
  simp [gqlStartIndex, hs, h]

/-! ## C9 -/

/-- C9: `hasRole` is reflexive and monotone over the total order
guest(0) < user(1) < admin(2): every role satisfies itself, admin
satisfies guest, guest does not satisfy admin, and in general
`hasRole user required` holds exactly when the user's level is at least
the required level. -/
theorem hasRole_monotone :
    (∀ r ∈ [ROLE_GUEST, ROLE_USER, ROLE_ADMIN], hasRole (some ⟨r⟩) r = true)
    ∧ hasRole (some ⟨ROLE_ADMIN⟩) ROLE_GUEST = true
    ∧ hasRole (some ⟨ROLE_GUEST⟩) ROLE_ADMIN = false
    ∧ ∀ ur ∈ [ROLE_GUEST, ROLE_USER, ROLE_ADMIN],
        ∀ rr ∈ [ROLE_GUEST, ROLE_USER, ROLE_ADMIN],
          (hasRole (some ⟨ur⟩) rr = true ↔ roleLevel rr ≤ roleLevel ur) := by
  decide

theorem hasRole_monotone_example :
    hasRole (some ⟨ROLE_GUEST⟩) ROLE_GUEST = true
    ∧ (hasRole (some ⟨ROLE_USER⟩) ROLE_GUEST = true ↔ roleLevel ROLE_GUEST ≤ roleLevel ROLE_USER) :=
  ⟨hasRole_monotone.1 ROLE_GUEST (by decide),
   hasRole_monotone.2.2.2 ROLE_USER (by decide) ROLE_GUEST (by decide)⟩

/-! ## C5 -/

/-- C5 (amended): `hasPermission` follows the role/resource table on the
five known collections, but an unknown resource name yields false only
for the `user` role (and unknown roles): the admin branch returns true
for every resource and action, and the guest branch returns true for
action `read` on every resource name. -/
theorem hasPermission_table_characterisation (resource action role : String) :
    hasPermission none resource action = false
    ∧ hasPermission (some ⟨ROLE_ADMIN⟩) resource action = true
    ∧ (∀ r ∈ ["nodes", "triggers", "actions", "responses"],
        hasPermission (some ⟨ROLE_USER⟩) r action = (action == "read" || action == "write"))
    ∧ hasPermission (some ⟨ROLE_USER⟩) "resourceTemplates" action = (action == "read")
    ∧ (resource ∉ ["nodes", "triggers", "actions", "responses", "resourceTemplates"] →
        hasPermission (some ⟨ROLE_USER⟩) resource action = false)
    ∧ hasPermission (some ⟨ROLE_GUEST⟩) resource action = (action == "read")
    ∧ (role ∉ [ROLE_ADMIN, ROLE_USER, ROLE_GUEST] →
        hasPermission (some ⟨role⟩) resource action = false) := by
  refine ⟨rfl, ?_, ?_, ?_, ?_, ?_, ?_⟩
  · simp [hasPermission]
  · intro r hr
    fin_cases hr <;>
      · simp [hasPermission, ROLE_USER, ROLE_ADMIN, userPermissions, List.contains, List.elem]
        cases h1 : action == "read" <;> cases h2 : action == "write" <;> simp [h1, h2]
  · simp [hasPermission, ROLE_USER, ROLE_ADMIN, userPermissions, List.contains, List.elem]
    cases h1 : action == "read" <;> simp [h1]
  · intro h
    simp only [List.mem_cons, List.not_mem_nil, or_false, not_or] at h
    obtain ⟨h1, h2, h3, h4, h5⟩ := h
    simp [hasPermission, ROLE_USER, ROLE_ADMIN, userPermissions, h1, h2, h3, h4, h5]
  · simp [hasPermission, ROLE_GUEST, ROLE_USER, ROLE_ADMIN]
  · intro h
    simp only [List.mem_cons, List.not_mem_nil, or_false, not_or, ROLE_ADMIN, ROLE_USER,
      ROLE_GUEST] at h
    obtain ⟨h1, h2, h3⟩ := h
    simp [hasPermission, ROLE_GUEST, ROLE_USER, ROLE_ADMIN, h1, h2, h3]

theorem hasPermission_unknown_resource_not_false :
    hasPermission (some ⟨"admin"⟩) "unknownResource" "write" = true
    ∧ hasPermission (some ⟨"guest"⟩) "unknownResource" "read" = true := by
  decide

theorem hasPermission_table_example :
    hasPermission (some ⟨ROLE_USER⟩) "nodes" "write" = ("write" == "read" || "write" == "write")
    ∧ hasPermission (some ⟨ROLE_USER⟩) "widgets" "read" = false :=
  ⟨(hasPermission_table_characterisation "widgets" "write" "x").2.2.1 "nodes" (by decide),
   (hasPermission_table_characterisation "widgets" "read" "x").2.2.2.2.1 (by decide)⟩

/-! ## C10 -/

/-- C10: the REST boolean filters compare the record field against the
boolean `query value == "true"`, so any query value other than exactly
"true" selects the records whose field is strictly equal to false (and
nothing is rejected or thrown). -/
theorem rest_bool_filter_nontrue_selects_false (nodes : List Record) (qv : String)
    (h : qv ≠ "true") :
    restNodeFilter nodes none (some qv) none none = nodes.filter (fun n => n.root == some false)
    ∧ restNodeFilter nodes none none (some qv) none =
        nodes.filter (fun n => n.global == some false) := by
  have hb : (qv == "true") = false := beq_eq_false_iff_ne.mpr h
  constructor
  · simp only [restNodeFilter, hb]
    exact List.filter_congr fun n _ => by cases hr : n.root <;> simp [jsEqBool, hr]
  · simp only [restNodeFilter, hb]
    exact List.filter_congr fun n _ => by cases hg : n.global <;> simp [jsEqBool, hg]

theorem rest_bool_filter_example :
    restNodeFilter
        [(⟨"1", "a", some true, none, none, none⟩ : Record),
         ⟨"2", "b", some false, none, none, none⟩,
         ⟨"3", "c", none, none, none, none⟩]
        none (some "1") none none =
      List.filter (fun n => n.root == some false)
        [(⟨"1", "a", some true, none, none, none⟩ : Record),
         ⟨"2", "b", some false, none, none, none⟩,
         ⟨"3", "c", none, none, none, none⟩] :=
  (rest_bool_filter_nontrue_selects_false _ "1" (by decide)).1

/-! ## C4 -/

/-- C4 (amended): every store operation fails with "Database not
initialized" when called before initialization completes, except
`findByIds` with a null/non-array `ids` argument, which returns `[]`
without error before the initialization check. -/
theorem uninitialized_store_operations_fail (db : Database) (h : db.initialized = false)
    (collection : String) (p : Record → Bool) (id : String) (ids : List String)
    (cids : List String) :
    db.find collection p = .error "Database not initialized"
    ∧ db.findOne collection p = .error "Database not initialized"
    ∧ db.findById collection id = .error "Database not initialized"
    ∧ db.findAll collection = .error "Database not initialized"
    ∧ db.findByIds collection (some ids) = .error "Database not initialized"
    ∧ db.findParentNodesByCompositeIds cids = .error "Database not initialized"
    ∧ db.findByIds collection none = .ok [] := by
  simp [Database.find, Database.findOne, Database.findById, Database.findAll,
    Database.findByIds, Database.findParentNodesByCompositeIds, h, Except.map]

theorem uninitialized_findByIds_nonarray_returns_empty :
    Database.findByIds ⟨false, []⟩ "responses" none = .ok ([] : List Record) := rfl

theorem uninitialized_store_operations_fail_example :
    Database.findAll ⟨false, []⟩ "nodes" = .error "Database not initialized"
    ∧ Database.findByIds ⟨false, []⟩ "nodes" (some ["x"]) = .error "Database not initialized" :=
  ⟨(uninitialized_store_operations_fail ⟨false, []⟩ rfl "nodes" (fun _ => true) "x" ["x"]
      ["y"]).2.2.2.1,
   (uninitialized_store_operations_fail ⟨false, []⟩ rfl "nodes" (fun _ => true) "x" ["x"]
      ["y"]).2.2.2.2.1⟩

/-! ## Pagination lemmas -/

theorem gqlRecords_eq_slice (filtered : List α) (first : Int) (after : Option String) :
    gqlRecords filtered first after =
      jsSlice filtered (gqlStartIndex after) (jsAdd (gqlStartIndex after) (some first)) := by
  simp only [gqlRecords, gqlPaginate, List.map_map]
  exact List.enum_map_snd _

/-! ## C6 -/

/-- C6: over a filtered sequence, `hasNextPage` holds exactly when
`startIndex + first` is less than the sequence length, and
`hasPreviousPage` holds exactly when `startIndex` is positive. -/
theorem gql_pageInfo_flags (S : List α) (first : Int) (after : Option String) (s : Int)
    (hs : gqlStartIndex after = some s) :
    ((gqlPaginate S first after).pageInfo.hasNextPage = true ↔ s + first < S.length)
    ∧ ((gqlPaginate S first after).pageInfo.hasPreviousPage = true ↔ 0 < s) := by
  simp [gqlPaginate, hs, jsAdd, jsLt]

theorem gql_pageInfo_flags_example :
    ((gqlPaginate ([0, 1, 2, 3] : List Nat) 2 (some "1")).pageInfo.hasNextPage = true ↔
        (1 : Int) + 2 < (([0, 1, 2, 3] : List Nat).length : Int))
    ∧ ((gqlPaginate ([0, 1, 2, 3] : List Nat) 2 (some "1")).pageInfo.hasPreviousPage = true ↔
        (0 : Int) < 1) :=
  gql_pageInfo_flags [0, 1, 2, 3] 2 (some "1") 1 (by decide)

/-! ## C1 -/

/-- C1 (amended): for a limit within the REST clamp range [1, 100], REST
offset pagination on page p with limit L returns exactly the records, in
order, of GraphQL cursor pagination with first = L and after any decimal
text parsing to (p-1)*L, over the same filtered sequence.  (Unamended the
claim fails for L > 100, because REST clamps the limit to 100 while the
GraphQL resolver does not clamp `first`.) -/
theorem rest_cursor_pagination_agree_within_limit_cap (S : List α) (p L : Int)
    (ps ls as : String) (hp : parseIntJS ps = some p) (hl : parseIntJS ls = some L)
    (ha : parseIntJS as = some ((p - 1) * L)) (hp1 : 1 ≤ p) (hl1 : 1 ≤ L) (hl2 : L ≤ 100) :
    restRecords S (some ps) (some ls) = gqlRecords S L (some as) := by
  rw [gqlRecords_eq_slice, gqlStartIndex_of_parse ha]
  have hpne : p ≠ 0 := by omega
  have hlne : L ≠ 0 := by omega
  have hpage : max 1 (jsOrDefault (parseQueryInt (some ps)) 1) = p := by
    simp only [parseQueryInt, hp, jsOrDefault, if_neg hpne]
    omega
  have hlim : min 100 (max 1 (jsOrDefault (parseQueryInt (some ls)) 10)) = L := by
    simp only [parseQueryInt, hl, jsOrDefault, if_neg hlne]
    omega
  simp [restRecords, getPaginationParams, hpage, hlim, jsAdd]

theorem rest_cursor_pagination_agree_example :
    restRecords (List.range 10) (some "2") (some "3") = gqlRecords (List.range 10) 3 (some "3") :=
  rest_cursor_pagination_agree_within_limit_cap (List.range 10) 2 3 "2" "3" "3"
    (by decide) (by decide) (by decide) (by decide) (by decide) (by decide)

set_option maxRecDepth 10000 in
theorem rest_cursor_pagination_disagree_above_limit_cap :
    restRecords (List.range 150) (some "1") (some "150") ≠
      gqlRecords (List.range 150) 150 (some "0") := by
  decide

/-! ## C3 -/

/-- C3 (amended): a non-numeric or non-positive REST `page` value behaves
as the default page 1, and nothing throws; but on the GraphQL side a
non-empty non-numeric `after` parses to NaN, which makes `slice` return
an empty page (with null cursors and false page flags) rather than
behaving as start index 0, and a negative `after` is interpreted by
`slice` relative to the end of the sequence. -/
theorem pagination_parse_fallback_behaviour (S : List α) (first : Int) (ps as : String)
    (lq : Option String) :
    ((parseIntJS ps = none ∨ ∃ n : Int, parseIntJS ps = some n ∧ n ≤ 0) →
        getPaginationParams (some ps) lq = getPaginationParams (some "1") lq)
    ∧ (as ≠ "" → parseIntJS as = none →
        gqlPaginate S first (some as) = ⟨[], ⟨false, false, none, none⟩, S.length⟩)
    ∧ (∀ n : Int, parseIntJS as = some n → n < 0 → 0 ≤ n + first →
        gqlRecords S first (some as) =
          (S.take (min (n + first).toNat S.length)).drop (((S.length : Int) + n).toNat)) := by
  refine ⟨?_, ?_, ?_⟩
  · intro h
    have h1 : max 1 (jsOrDefault (parseQueryInt (some "1")) 1) = 1 := by decide
    have hone : max 1 (jsOrDefault (parseQueryInt (some ps)) 1) = 1 := by
      rcases h with h | ⟨n, hn, hn0⟩
      · simp [parseQueryInt, h, jsOrDefault]
      · by_cases hz : n = 0
        · simp [parseQueryInt, hn, jsOrDefault, hz]
        · simp only [parseQueryInt, hn, jsOrDefault, if_neg hz]
          omega
    simp only [getPaginationParams, hone, h1]
  · intro hne hnan
    simp [gqlPaginate, gqlStartIndex, hne, hnan, jsSlice, sliceBound, jsAdd, jsLt]
  · intro n hn hneg hnn
    rw [gqlRecords_eq_slice, gqlStartIndex_of_parse hn]
    simp [jsSlice, jsAdd, sliceBound, hneg, not_lt.mpr hnn]

theorem gql_nonnumeric_after_empty_page :
    gqlRecords ([0, 1, 2, 3, 4] : List Nat) 10 (some "abc") = []
    ∧ gqlRecords ([0, 1, 2, 3, 4] : List Nat) 10 none = [0, 1, 2, 3, 4]
    ∧ gqlRecords ([0, 1, 2, 3, 4] : List Nat) 10 (some "-3") = [2, 3, 4] := by
  decide

theorem pagination_parse_fallback_example :
    getPaginationParams (some "abc") (some "10") = getPaginationParams (some "1") (some "10")
    ∧ gqlPaginate ([0, 1] : List Nat) 10 (some "zz") = ⟨[], ⟨false, false, none, none⟩, 2⟩
    ∧ gqlRecords ([0, 1, 2, 3, 4] : List Nat) 10 (some "-3") =
        (List.take (min ((-3 : Int) + 10).toNat ([0, 1, 2, 3, 4] : List Nat).length)
            ([0, 1, 2, 3, 4] : List Nat)).drop
          (((([0, 1, 2, 3, 4] : List Nat).length : Int) + (-3)).toNat) :=
  ⟨(pagination_parse_fallback_behaviour ([] : List Nat) 0 "abc" "" (some "10")).1
      (Or.inl (by decide)),
   (pagination_parse_fallback_behaviour ([0, 1] : List Nat) 10 "" "zz" none).2.1
      (by decide) (by decide),
   (pagination_parse_fallback_behaviour ([0, 1, 2, 3, 4] : List Nat) 10 "" "-3" none).2.2
      (-3) (by decide) (by decide) (by decide)⟩

theorem jsSlice_head? (l : List α) (s : Int) (e : JSNum) (h0 : 0 ≤ s)
    (hne : jsSlice l (some s) e ≠ []) :
    (jsSlice l (some s) e).head? = l[s.toNat]? ∧ s.toNat < l.length := by
  have hsb : sliceBound l.length s = min s.toNat l.length := by
    simp [sliceBound, not_lt.mpr h0]
  have hthis : jsSlice l (some s) e =
      (l.take (sliceBound l.length (e.getD 0))).drop (min s.toNat l.length) := by
    simp [jsSlice, hsb]
  have hlt : min s.toNat l.length < min (sliceBound l.length (e.getD 0)) l.length := by
    by_contra hc
    apply hne
    rw [hthis, List.drop_eq_nil_iff, List.length_take]
    omega
  have hs' : s.toNat < l.length := by omega
  have hm : min s.toNat l.length = s.toNat := by omega
  refine ⟨?_, hs'⟩
  rw [hthis, hm, List.head?_drop, List.getElem?_take, if_pos (by omega)]

/-! ## C2 -/

/-- C2 (amended): for a cursor-pagination request whose `after` parses to
a nonnegative start index s, `startCursor` is s as decimal text, which is
the index of the first returned item; `endCursor` is `s + first - 1` as
decimal text, which is the index of the last returned item only when the
page is full; and both are null when the returned page is empty.
(Unamended the claim fails: a truncated final page still reports
`endCursor = s + first - 1`, past the last returned index.) -/
theorem gql_cursors_characterisation (S : List α) (first : Int) (after : Option String)
    (s : Int) (hs : gqlStartIndex after = some s) (h0 : 0 ≤ s) :
    ((gqlPaginate S first after).edges = [] →
        (gqlPaginate S first after).pageInfo.startCursor = none
        ∧ (gqlPaginate S first after).pageInfo.endCursor = none)
    ∧ ((gqlPaginate S first after).edges ≠ [] →
        (gqlPaginate S first after).pageInfo.startCursor = some (toString s)
        ∧ ((gqlPaginate S first after).edges.map Edge.node).head? = S[s.toNat]?
        ∧ (gqlPaginate S first after).pageInfo.endCursor = some (toString (s + first - 1))) := by
  have hrec : gqlRecords S first after = jsSlice S (some s) (jsAdd (some s) (some first)) := by
    rw [gqlRecords_eq_slice, hs]
  have hmapeq : (gqlPaginate S first after).edges.map Edge.node = gqlRecords S first after := rfl
  constructor
  · intro hemp
    have hplen : (jsSlice S (some s) (jsAdd (some s) (some first))).length = 0 := by
      rw [← hrec, gqlRecords, hemp]
      rfl
    constructor <;> simp [gqlPaginate, hs, hplen]
  · intro hne
    have hne' : jsSlice S (some s) (jsAdd (some s) (some first)) ≠ [] := by
      rw [← hrec]
      intro h
      exact hne (List.map_eq_nil_iff.mp (hmapeq.trans h))
    obtain ⟨hhead, hlt⟩ := jsSlice_head? S s (jsAdd (some s) (some first)) h0 hne'
    have hplen : 0 < (jsSlice S (some s) (jsAdd (some s) (some first))).length :=
      List.length_pos.mpr hne'
    refine ⟨?_, ?_, ?_⟩
    · simp [gqlPaginate, hs, hplen, jsNumToString]
    · rw [hmapeq, hrec]
      exact hhead
    · simp [gqlPaginate, hs, hplen, jsNumToString, jsAdd, Int.sub_eq_add_neg]
      exact hne'

theorem gql_endCursor_not_last_index :
    (gqlPaginate (List.range 3) 10 none).pageInfo.endCursor = some "9"
    ∧ ((gqlPaginate (List.range 3) 10 none).edges.map Edge.cursor).getLast? = some "2" := by
  decide

theorem gql_cursors_characterisation_example :
    ((gqlPaginate ([10, 20, 30] : List Nat) 2 (some "1")).edges = [] →
        (gqlPaginate ([10, 20, 30] : List Nat) 2 (some "1")).pageInfo.startCursor = none
        ∧ (gqlPaginate ([10, 20, 30] : List Nat) 2 (some "1")).pageInfo.endCursor = none)
    ∧ ((gqlPaginate ([10, 20, 30] : List Nat) 2 (some "1")).edges ≠ [] →
        (gqlPaginate ([10, 20, 30] : List Nat) 2 (some "1")).pageInfo.startCursor =
            some (toString (1 : Int))
        ∧ ((gqlPaginate ([10, 20, 30] : List Nat) 2 (some "1")).edges.map Edge.node).head? =
            ([10, 20, 30] : List Nat)[(1 : Int).toNat]?
        ∧ (gqlPaginate ([10, 20, 30] : List Nat) 2 (some "1")).pageInfo.endCursor =
            some (toString ((1 : Int) + 2 - 1))) :=
  gql_cursors_characterisation [10, 20, 30] 2 (some "1") 1 (by decide) (by decide)

/-! ## C7 -/

/-- C7: over an initialized store, `findParentNodesByCompositeIds` returns
exactly the nodes, in store order, whose `children` array contains at
least one of the supplied composite ids; a node lacking a `children`
field is never returned, and when no node references any supplied id the
result is the empty list. -/
theorem findParentNodes_characterisation (db : Database) (nodes : List Record)
    (cids : List String) (hinit : db.initialized = true)
    (hn : db.data.lookup "nodes" = some nodes) :
    ∃ res, db.findParentNodesByCompositeIds cids = .ok res
      ∧ res.Sublist nodes
      ∧ (∀ r, r ∈ res ↔ r ∈ nodes ∧ ∃ cs, r.children = some cs ∧ ∃ i ∈ cids, i ∈ cs)
      ∧ ((∀ r ∈ nodes, ∀ cs, r.children = some cs → ∀ i ∈ cids, i ∉ cs) → res = []) := by
  refine ⟨nodes.filter fun node =>
      match node.children with
      | none => false
      | some cs => cs.any fun childId => cids.contains childId, ?_, List.filter_sublist _,
      ?_, ?_⟩
  · simp [Database.findParentNodesByCompositeIds, Database.find, hinit, hn]
  · intro r
    simp only [List.mem_filter]
    constructor
    · rintro ⟨hr, hp⟩
      refine ⟨hr, ?_⟩
      cases hc : r.children with
      | none => rw [hc] at hp; exact absurd hp (by simp)
      | some cs =>
        rw [hc] at hp
        simp only [List.any_eq_true, List.contains, List.elem_eq_mem, decide_eq_true_eq] at hp
        obtain ⟨c, hcmem, hcin⟩ := hp
        exact ⟨cs, rfl, c, hcin, hcmem⟩
    · rintro ⟨hr, cs, hcs, i, hic, hics⟩
      refine ⟨hr, ?_⟩
      rw [hcs]
      simp only [List.any_eq_true, List.contains, List.elem_eq_mem, decide_eq_true_eq]
      exact ⟨i, hics, hic⟩
  · intro hnone
    rw [List.filter_eq_nil_iff]
    intro r hr
    cases hc : r.children with
    | none => simp
    | some cs =>
      simp only [List.any_eq_true, List.contains, List.elem_eq_mem, decide_eq_true_eq]
      rintro ⟨c, hcmem, hcin⟩
      exact hnone r hr cs hc c hcin hcmem

theorem findParentNodes_example :
    ∃ res,
      Database.findParentNodesByCompositeIds
          ⟨true, [("nodes",
            [(⟨"n1", "a", none, none, none, some ["c1", "c2"]⟩ : Record),
             ⟨"n2", "b", none, none, none, some ["c9"]⟩,
             ⟨"n3", "c", none, none, none, none⟩])]⟩ ["c2"] = .ok res
      ∧ res.Sublist
          [(⟨"n1", "a", none, none, none, some ["c1", "c2"]⟩ : Record),
           ⟨"n2", "b", none, none, none, some ["c9"]⟩,
           ⟨"n3", "c", none, none, none, none⟩]
      ∧ (∀ r, r ∈ res ↔
          r ∈ [(⟨"n1", "a", none, none, none, some ["c1", "c2"]⟩ : Record),
               ⟨"n2", "b", none, none, none, some ["c9"]⟩,
               ⟨"n3", "c", none, none, none, none⟩]
          ∧ ∃ cs, r.children = some cs ∧ ∃ i ∈ ["c2"], i ∈ cs)
      ∧ ((∀ r ∈ [(⟨"n1", "a", none, none, none, some ["c1", "c2"]⟩ : Record),
               ⟨"n2", "b", none, none, none, some ["c9"]⟩,
               ⟨"n3", "c", none, none, none, none⟩],
            ∀ cs, r.children = some cs → ∀ i ∈ ["c2"], i ∉ cs) → res = []) :=
  findParentNodes_characterisation _ _ ["c2"] rfl rfl

/-! ## C8 -/

/-- C8: over an initialized store, `findByIds` returns exactly the
records of the collection whose `_id` is a member of the given id list,
in store order rather than input-id order, and ids matching no record are
skipped without any error. -/
theorem findByIds_characterisation (db : Database) (collection : String)
    (records : List Record) (ids : List String) (hinit : db.initialized = true)
    (hc : db.data.lookup collection = some records) :
    ∃ res, db.findByIds collection (some ids) = .ok res
      ∧ res.Sublist records
      ∧ (∀ r, r ∈ res ↔ r ∈ records ∧ r._id ∈ ids) := by
  refine ⟨records.filter fun record => ids.contains record._id, ?_, List.filter_sublist _, ?_⟩
  · simp [Database.findByIds, Database.find, hinit, hc]
  · intro r
    simp [List.mem_filter, List.contains]

theorem findByIds_example :
    ∃ res,
      Database.findByIds
          ⟨true, [("responses", [(⟨"x", "rx", none, none, none, none⟩ : Record)])]⟩
          "responses" (some ["x", "y"]) = .ok res
      ∧ res.Sublist [(⟨"x", "rx", none, none, none, none⟩ : Record)]
      ∧ (∀ r, r ∈ res ↔
          r ∈ [(⟨"x", "rx", none, none, none, none⟩ : Record)] ∧ r._id ∈ ["x", "y"]) :=
  findByIds_characterisation _ "responses" _ ["x", "y"] rfl rfl

end GraphQLAssignment
